import Mathlib

/-!
Verification of the measurement-indexing data model of PyChamber
(`src/pychamber/network_model.py`, class `NetworkModel`).

A `Network` record models one skrf network held in the set: a frequency
grid (`frequency.f`), a complex response vector parallel to the grid
(one port, so `s_db` is a vector of dB magnitudes), and the two tag
parameters `params['azimuth']` and `params['elevation']`.  Scalars are
rationals so that selection (exact floating-point equality in the
source) is decidable; the dB conversion maps into the reals.

The model `NetworkModel` is the ordered record sequence owned by the
inherited `NetworkSet` container.  The inherited library operations
used by the source are modelled directly: `sel params` keeps, in stored
order, the records whose fields equal every supplied key exactly;
`n[freq]` parses the frequency label and reads the nearest grid bin;
`len`, `[0]` and list conversion are the list operations.  Numpy arrays
are modelled by `Arr`, which records whether a result is one- or
two-dimensional, so that `reshape(-1, 1)` column shapes are visible.  A
raised exception (`IndexError` from `[0]` on an empty selection, or a
failed frequency lookup) is `none`.
-/

namespace PyChamber

/-- One measurement record: frequency grid, complex response samples
`(re, im)` parallel to the grid, and the capture pose parameters. -/
structure Network where
  freqGrid : List ℚ
  response : List (ℚ × ℚ)
  azimuth : ℚ
  elevation : ℚ
deriving DecidableEq

/-- The collection is the ordered record sequence of the `NetworkSet`. -/
abbrev NetworkModel := List Network

/-- A selection key: the `params` dict built in `mags`, with at most
the keys `azimuth` and `elevation`. -/
structure Params where
  azimuth : Option ℚ
  elevation : Option ℚ
deriving DecidableEq

/-- A record matches a selection key iff every supplied key equals the
record's field exactly (the inherited `NetworkSet.sel` convention). -/
def matchesParams (p : Params) (n : Network) : Bool :=
  (match p.azimuth with
   | none => true
   | some a => n.azimuth == a) &&
  (match p.elevation with
   | none => true
   | some e => n.elevation == e)

/-- Source `self.sel(params)`: the records matching the selection key,
in stored order. -/
def sel (c : NetworkModel) (p : Params) : NetworkModel :=
  c.filter (fun n => matchesParams p n)

/-- Numpy array as returned by the queries: either one-dimensional or
two-dimensional (a column after `reshape(-1, 1)`). -/
inductive Arr (α : Type) where
  | d1 : List α → Arr α
  | d2 : List (List α) → Arr α
deriving DecidableEq

/-- Source `freqs`: empty array when the collection is empty, otherwise
the first record's frequency grid (`self[0].frequency.f`). -/
def freqs : NetworkModel → List ℚ
  | [] => []
  | n :: _ => n.freqGrid

/-- Source `azimuths`: empty array when the collection is empty,
otherwise the azimuth of every record selected by `{'elevation': 0}`,
reshaped to a column. -/
def azimuths (c : NetworkModel) : Arr ℚ :=
  if c.isEmpty then Arr.d1 []
  else Arr.d2 ((sel c ⟨none, some 0⟩).map (fun n => [n.azimuth]))

/-- Source `elevations`: empty array when the collection is empty,
otherwise the elevation of every record selected by `{'azimuth': 0}`,
reshaped to a column. -/
def elevations (c : NetworkModel) : Arr ℚ :=
  if c.isEmpty then Arr.d1 []
  else Arr.d2 ((sel c ⟨some 0, none⟩).map (fun n => [n.elevation]))

/-- dB magnitude of a complex sample: `20*log10(|z|)`. -/
noncomputable def db (z : ℚ × ℚ) : ℝ :=
  20 * Real.logb 10 (Real.sqrt ((z.1 : ℝ) ^ 2 + (z.2 : ℝ) ^ 2))

/-- The frequency label accepted by `n[freq]`, modelled as a decimal
string of Hz; any other label makes the library lookup fail. -/
def parseFreq (s : String) : Option ℚ :=
  if s.isEmpty then none
  else if s.toList.all Char.isDigit then
    some (((s.toList.foldl (fun acc ch => 10 * acc + (ch.toNat - 48)) 0 : ℕ) : ℚ))
  else none

/-- Nearest-bin lookup of a frequency value in a grid; ties prefer the
earlier bin, so an exact member resolves to its first index. -/
def nearestIdx : List ℚ → ℚ → ℕ
  | [], _ => 0
  | [_], _ => 0
  | g :: g2 :: gs, f =>
    let j := nearestIdx (g2 :: gs) f
    if |g - f| ≤ |(g2 :: gs).getD j 0 - f| then 0 else j + 1

/-- Source `n[freq].s_db` in the one-port vector model: the dB
magnitude of the response sample at the nearest grid bin. -/
noncomputable def dbAt (n : Network) (f : ℚ) : ℝ :=
  db (n.response.getD (nearestIdx n.freqGrid f) (0, 0))

/-- The `params` dict built by `mags`: a key is added only when the
argument is truthy, so `None` and exactly `0` both add no key. -/
def buildParams (azimuth elevation : Option ℚ) : Params :=
  { azimuth :=
      match azimuth with
      | none => none
      | some a => if a = 0 then none else some a
    elevation :=
      match elevation with
      | none => none
      | some e => if e = 0 then none else some e }

/-- The falsy-frequency branch of `mags`:
`self.sel(params)[0].s_db.reshape(-1, 1)`.  Indexing `[0]` on an empty
selection raises `IndexError`, modelled as `none`. -/
noncomputable def magsNoFreq (c : NetworkModel) (p : Params) : Option (Arr ℝ) :=
  match sel c p with
  | [] => none
  | n :: _ => some (Arr.d2 (n.response.map (fun z => [db z])))

/-- Source `mags(freq, azimuth, elevation)`: empty array on an empty
collection; otherwise build the selection key from the truthy angle
arguments, then either map `n[freq].s_db` over the selection
(truthy `freq`) or return the first selected record's dB column. -/
noncomputable def mags (c : NetworkModel) (freq : Option String)
    (azimuth elevation : Option ℚ) : Option (Arr ℝ) :=
  if c.isEmpty then some (Arr.d1 [])
  else
    match freq with
    | some s =>
      if s.isEmpty then magsNoFreq c (buildParams azimuth elevation)
      else
        match parseFreq s with
        | some f =>
          some (Arr.d1 ((sel c (buildParams azimuth elevation)).map
            (fun n => dbAt n f)))
        | none => none
    | none => magsNoFreq c (buildParams azimuth elevation)

/-- Source `append`: a fresh model built from `list(self.sel())` (the
unfiltered selection, i.e. every stored record) plus the new record;
the receiver is not touched. -/
def append (c : NetworkModel) (ntwk : Network) : NetworkModel :=
  sel c ⟨none, none⟩ ++ [ntwk]

/-- Sample record at pose (0, 0) used to exercise the queries. -/
def nwA : Network :=
  { freqGrid := [1000, 2000], response := [(1, 0), (2, 0)],
    azimuth := 0, elevation := 0 }

/-- Sample record at pose (10, 0). -/
def nwB : Network :=
  { freqGrid := [1000, 2000], response := [(3, 0), (4, 0)],
    azimuth := 10, elevation := 0 }

/-- Sample record at pose (0, 10). -/
def nwC : Network :=
  { freqGrid := [1000, 2000], response := [(5, 0), (6, 0)],
    azimuth := 0, elevation := 10 }

/-- Sample record that re-visits the pose (0, 0) of `nwA` with a
different response. -/
def nwDup : Network :=
  { freqGrid := [1000, 2000], response := [(7, 0), (8, 0)],
    azimuth := 0, elevation := 0 }

/-- Three-record sample collection, as in the specification scenario. -/
def sample3 : NetworkModel := [nwA, nwB, nwC]

/-- Sample record for the 3-by-3 angular grid. -/
def gridNw (a e : ℚ) : Network :=
  { freqGrid := [1000], response := [(1, 0)], azimuth := a, elevation := e }

/-- Nine records at elevations -10, 0, 10 crossed with azimuths
-20, 0, 20, appended elevation-row by elevation-row. -/
def grid9 : NetworkModel :=
  [gridNw (-20) (-10), gridNw 0 (-10), gridNw 20 (-10),
   gridNw (-20) 0, gridNw 0 0, gridNw 20 0,
   gridNw (-20) 10, gridNw 0 10, gridNw 20 10]

/-- Helper: the unfiltered selection keeps every record. -/
theorem sel_all (c : NetworkModel) : sel c ⟨none, none⟩ = c := by
  simp [sel, matchesParams]

/-- Helper: an azimuth argument of exactly `0` is falsy and adds no
selection key. -/
theorem buildParams_az_zero (e : Option ℚ) :
    buildParams (some 0) e = buildParams none e := by
  simp [buildParams]

/-- Helper: an elevation argument of exactly `0` is falsy and adds no
selection key. -/
theorem buildParams_el_zero (a : Option ℚ) :
    buildParams a (some 0) = buildParams a none := by
  simp [buildParams]

/-- Helper: nearest-bin lookup of a value present in the grid resolves
to the value's first index. -/
theorem nearestIdx_indexOf {f : ℚ} : ∀ {grid : List ℚ}, f ∈ grid →
    nearestIdx grid f = grid.indexOf f := by
  intro grid
  induction grid with
  | nil => intro h; cases h
  | cons g gs ih =>
    intro hmem
    cases gs with
    | nil =>
      have : f = g := by simpa using hmem
      subst this
      simp [nearestIdx, List.indexOf_cons_self]
    | cons g2 gs2 =>
      rcases List.mem_cons.mp hmem with hfg | htail
      · subst hfg
        have h0 : |f - f| = 0 := by simp
        simp [nearestIdx, h0, abs_nonneg, List.indexOf_cons_self]
      · have hidx : nearestIdx (g2 :: gs2) f = (g2 :: gs2).indexOf f := ih htail
        have hlt : (g2 :: gs2).indexOf f < (g2 :: gs2).length :=
          List.indexOf_lt_length.mpr htail
        have hget : (g2 :: gs2).getD ((g2 :: gs2).indexOf f) 0 = f := by
          rw [List.getD_eq_getElem _ _ hlt]
          exact List.getElem_indexOf hlt
        by_cases hfg : g = f
        · subst hfg
          have h0 : |g - g| = 0 := by simp
          simp [nearestIdx, h0, abs_nonneg, List.indexOf_cons_self]
        · have hcond : ¬ (|g - f| ≤
              |(g2 :: gs2).getD (nearestIdx (g2 :: gs2) f) 0 - f|) := by
            rw [hidx, hget]
            simp only [sub_self, abs_zero]
            intro hle
            exact hfg (by linarith [abs_nonneg (g - f), eq_of_abs_sub_nonpos hle])
          rw [List.indexOf_cons_ne _ hfg]
          rw [hidx] at hcond
          simp only [nearestIdx, hidx, if_neg hcond]

/-- Claim C1: for every collection and every frequency argument,
calling `mags` with azimuth exactly `0` (and likewise elevation `0`)
produces the same result as calling it with that angle omitted: the
falsy angle value adds no selection key, so the match set is the same
as with no angular filter on that axis. -/
theorem mags_zero_angle_eq_omitted (c : NetworkModel) (freq : Option String)
    (a e : Option ℚ) :
    mags c freq (some 0) e = mags c freq none e ∧
    mags c freq a (some 0) = mags c freq a none := by
  constructor
  · unfold mags
    rw [buildParams_az_zero]
  · unfold mags
    rw [buildParams_el_zero]

/-- Claim C2: when `mags` is called on a non-empty collection with a
frequency label that parses to a value present in every matching
record's grid, it returns a one-dimensional sequence with one entry per
matching record, in stored order, whose i-th value is
`20*log10(|response_i|)` of the i-th matching record at the requested
frequency point (the grid index of the requested value). -/
theorem mags_with_freq_maps_db_at_freq (c : NetworkModel) (s : String)
    (f : ℚ) (a e : Option ℚ) (hc : c ≠ []) (hs : parseFreq s = some f)
    (hf : ∀ n ∈ sel c (buildParams a e), f ∈ n.freqGrid) :
    mags c (some s) a e =
      some (Arr.d1 ((sel c (buildParams a e)).map
        (fun n => db (n.response.getD (n.freqGrid.indexOf f) (0, 0))))) ∧
    ((sel c (buildParams a e)).map
        (fun n => db (n.response.getD (n.freqGrid.indexOf f) (0, 0)))).length
      = (sel c (buildParams a e)).length := by
  have hne : s.isEmpty = false := by
    by_contra h
    have h2 : s.isEmpty = true := by simpa using h
    simp [parseFreq, h2] at hs
  have hcE : c.isEmpty = false := by simp [List.isEmpty_iff, hc]
  constructor
  · unfold mags
    simp only [hcE, hne, hs, Bool.false_eq_true, if_false]
    refine congrArg (fun l => some (Arr.d1 l)) ?_
    refine List.map_congr_left ?_
    intro n hn
    unfold dbAt
    rw [nearestIdx_indexOf (hf n hn)]
  · simp

/-- Witness for C2: on the three-record sample with label `"1000"` and
no angular filter, the hypotheses hold and the query maps the dB value
at grid index of `1000` over all three records. -/
theorem mags_with_freq_maps_db_at_freq_witness :
    parseFreq "1000" = some 1000 ∧
    (mags sample3 (some "1000") none none =
      some (Arr.d1 ((sel sample3 (buildParams none none)).map
        (fun n => db (n.response.getD (n.freqGrid.indexOf 1000) (0, 0))))) ∧
     ((sel sample3 (buildParams none none)).map
        (fun n => db (n.response.getD (n.freqGrid.indexOf 1000) (0, 0)))).length
      = (sel sample3 (buildParams none none)).length) :=
  ⟨by decide,
   mags_with_freq_maps_db_at_freq sample3 "1000" 1000 none none
     (by decide) (by decide) (by decide)⟩

/-- Claim C3: when `mags` is called on a non-empty collection with the
frequency omitted and the angular filter matches at least one record,
it returns the full per-frequency dB vector of the first matching
record only, as a column of one-element rows whose length is the
record's frequency-grid length (given the grid-parallel response
invariant). -/
theorem mags_without_freq_first_record_column (c : NetworkModel)
    (a e : Option ℚ) (n : Network) (rest : List Network) (hc : c ≠ [])
    (hsel : sel c (buildParams a e) = n :: rest)
    (hpar : n.response.length = n.freqGrid.length) :
    mags c none a e = some (Arr.d2 (n.response.map (fun z => [db z]))) ∧
    (n.response.map (fun z => [db z])).length = n.freqGrid.length ∧
    ∀ row ∈ n.response.map (fun z => [db z]), row.length = 1 := by
  have hcE : c.isEmpty = false := by simp [List.isEmpty_iff, hc]
  refine ⟨?_, ?_, ?_⟩
  · unfold mags magsNoFreq
    simp only [hcE, hsel, Bool.false_eq_true, if_false]
  · simp [hpar]
  · intro row hrow
    rcases List.mem_map.mp hrow with ⟨z, hz, hzr⟩
    simp [← hzr]

/-- Witness for C3: on the three-record sample with no filter, the
first matching record is `nwA` and its two-bin dB column is returned. -/
theorem mags_without_freq_first_record_column_witness :
    sel sample3 (buildParams none none) = nwA :: [nwB, nwC] ∧
    (mags sample3 none none none =
      some (Arr.d2 (nwA.response.map (fun z => [db z]))) ∧
     (nwA.response.map (fun z => [db z])).length = nwA.freqGrid.length ∧
     ∀ row ∈ nwA.response.map (fun z => [db z]), row.length = 1) :=
  ⟨by decide,
   mags_without_freq_first_record_column sample3 none none nwA [nwB, nwC]
     (by decide) (by decide) (by decide)⟩

/-- Claim C4: `append` returns a collection holding all existing
records, in order, followed by the new one, with length one more than
the receiver's; the receiver itself is a pure value, built fresh from
the unfiltered selection, hence untouched. -/
theorem append_returns_extended_copy (c : NetworkModel) (m : Network) :
    append c m = c ++ [m] ∧ (append c m).length = c.length + 1 := by
  have h : append c m = c ++ [m] := by rw [append, sel_all]
  exact ⟨h, by simp [h]⟩

/-- Claim C5: on a freshly constructed empty collection, `freqs`,
`azimuths`, `elevations` and `mags` (with any combination of
arguments) all return empty results and never signal an error. -/
theorem empty_collection_queries_empty :
    freqs [] = [] ∧ azimuths [] = Arr.d1 [] ∧ elevations [] = Arr.d1 [] ∧
    ∀ (freq : Option String) (a e : Option ℚ),
      mags [] freq a e = some (Arr.d1 []) := by
  refine ⟨rfl, rfl, rfl, ?_⟩
  intro freq a e
  rfl

/-- Claim C6: on a non-empty collection, `azimuths` returns the azimuth
values of exactly the records whose elevation equals exactly `0`, in
stored order, as a column; when no record has elevation `0` the axis is
empty; and under the unique-pose invariant the returned values are
pairwise distinct. -/
theorem azimuths_elevation_zero_cut (c : NetworkModel) (hc : c ≠ []) :
    azimuths c =
      Arr.d2 ((c.filter (fun n => n.elevation == 0)).map (fun n => [n.azimuth])) ∧
    ((∀ n ∈ c, n.elevation ≠ 0) → azimuths c = Arr.d2 []) ∧
    (c.Pairwise (fun m n => m.azimuth ≠ n.azimuth ∨ m.elevation ≠ n.elevation) →
      ((c.filter (fun n => n.elevation == 0)).map
        (fun n => n.azimuth)).Pairwise (fun x y => x ≠ y)) := by
  have hcE : c.isEmpty = false := by simp [List.isEmpty_iff, hc]
  have hflt : sel c ⟨none, some 0⟩ = c.filter (fun n => n.elevation == 0) := by
    simp [sel, matchesParams]
  refine ⟨?_, ?_, ?_⟩
  · unfold azimuths
    rw [hcE, hflt]
    simp
  · intro hall
    unfold azimuths
    rw [hcE, hflt]
    have : c.filter (fun n => n.elevation == 0) = [] := by
      rw [List.filter_eq_nil_iff]
      intro n hn
      simpa using hall n hn
    simp [this]
  · intro hpw
    rw [List.pairwise_map]
    refine List.Pairwise.imp_of_mem ?_ (hpw.sublist (List.filter_sublist _))
    intro m n hm hn hmn
    have hm0 : m.elevation = 0 := by simpa using List.of_mem_filter hm
    have hn0 : n.elevation = 0 := by simpa using List.of_mem_filter hn
    rcases hmn with h | h
    · exact h
    · exact absurd (hm0.trans hn0.symm) h

/-- Witness for C6: the nine-record angular grid is non-empty and its
azimuth axis is the elevation-zero cut. -/
theorem azimuths_elevation_zero_cut_witness :
    grid9 ≠ [] ∧
    (azimuths grid9 =
      Arr.d2 ((grid9.filter (fun n => n.elevation == 0)).map (fun n => [n.azimuth])) ∧
     ((∀ n ∈ grid9, n.elevation ≠ 0) → azimuths grid9 = Arr.d2 []) ∧
     (grid9.Pairwise (fun m n => m.azimuth ≠ n.azimuth ∨ m.elevation ≠ n.elevation) →
       ((grid9.filter (fun n => n.elevation == 0)).map
         (fun n => n.azimuth)).Pairwise (fun x y => x ≠ y))) :=
  ⟨by decide, azimuths_elevation_zero_cut grid9 (by decide)⟩

/-- Claim C7: on a non-empty collection, `elevations` returns the
elevation values of exactly the records whose azimuth equals exactly
`0`, in stored order, as a column of one-element rows. -/
theorem elevations_azimuth_zero_cut (c : NetworkModel) (hc : c ≠ []) :
    elevations c =
      Arr.d2 ((c.filter (fun n => n.azimuth == 0)).map (fun n => [n.elevation])) ∧
    ∀ row ∈ (c.filter (fun n => n.azimuth == 0)).map (fun n => [n.elevation]),
      row.length = 1 := by
  have hcE : c.isEmpty = false := by simp [List.isEmpty_iff, hc]
  have hflt : sel c ⟨some 0, none⟩ = c.filter (fun n => n.azimuth == 0) := by
    simp [sel, matchesParams]
  constructor
  · unfold elevations
    rw [hcE, hflt]
    simp
  · intro row hrow
    rcases List.mem_map.mp hrow with ⟨z, hz, hzr⟩
    simp [← hzr]

/-- Witness for C7: on the nine records at elevations -10, 0, 10
crossed with azimuths -20, 0, 20, `elevations` returns exactly the
column -10, 0, 10 (the azimuth-zero cut in insertion order). -/
theorem elevations_azimuth_zero_cut_witness :
    grid9 ≠ [] ∧
    elevations grid9 = Arr.d2 [[-10], [0], [10]] ∧
    ∀ row ∈ (grid9.filter (fun n => n.azimuth == 0)).map
        (fun n => [n.elevation]), row.length = 1 :=
  ⟨by decide,
   ((elevations_azimuth_zero_cut grid9 (by decide)).1).trans (by decide),
   (elevations_azimuth_zero_cut grid9 (by decide)).2⟩

/-- Claim C8: appending a measurement at a pose already occupied by a
stored record keeps both: the result is the old sequence plus the new
record, has length one more, and contains the prior record as well as
the duplicate; no overwrite-by-key occurs. -/
theorem append_keeps_duplicate_pose (c : NetworkModel) (m n : Network)
    (hn : n ∈ c) (ha : m.azimuth = n.azimuth) (he : m.elevation = n.elevation) :
    append c m = c ++ [m] ∧ (append c m).length = c.length + 1 ∧
    n ∈ append c m ∧ m ∈ append c m := by
  have h : append c m = c ++ [m] := by rw [append, sel_all]
  refine ⟨h, by simp [h], ?_, ?_⟩
  · rw [h]
    exact List.mem_append_left _ hn
  · rw [h]
    exact List.mem_append_right _ (by simp)

/-- Witness for C8: `nwDup` re-visits the pose (0, 0) of `nwA`; the
append keeps both records. -/
theorem append_keeps_duplicate_pose_witness :
    nwA ∈ sample3 ∧
    (append sample3 nwDup = sample3 ++ [nwDup] ∧
     (append sample3 nwDup).length = sample3.length + 1 ∧
     nwA ∈ append sample3 nwDup ∧ nwDup ∈ append sample3 nwDup) :=
  ⟨by decide,
   append_keeps_duplicate_pose sample3 nwDup nwA (by decide) (by decide)
     (by decide)⟩

/-- Claim C9: on a concrete non-empty single-record collection, a
non-zero azimuth filter of `5` matches no record; with a frequency
supplied `mags` returns an empty one-dimensional array, but with the
frequency omitted it fails (indexing `[0]` of the empty selection)
instead of returning an empty result. -/
theorem mags_no_match_branch_asymmetry :
    [nwA] ≠ ([] : NetworkModel) ∧ (5 : ℚ) ≠ 0 ∧
    sel [nwA] (buildParams (some 5) none) = [] ∧
    mags [nwA] (some "1000") (some 5) none = some (Arr.d1 []) ∧
    mags [nwA] none (some 5) none = none :=
  ⟨by decide, by decide, rfl, rfl, rfl⟩

/-- Claim C10: on a non-empty collection, calling `mags` with the empty
string as the frequency argument is indistinguishable from omitting the
frequency: the falsy empty-string label selects the no-frequency
branch. -/
theorem mags_empty_string_freq_eq_none (c : NetworkModel) (a e : Option ℚ)
    (hc : c ≠ []) :
    mags c (some "") a e = mags c none a e := by
  unfold mags
  simp [show "".isEmpty = true from rfl]

/-- Witness for C10: on the three-record sample, the empty-string
frequency query equals the omitted-frequency query. -/
theorem mags_empty_string_freq_eq_none_witness :
    sample3 ≠ [] ∧
    mags sample3 (some "") none none = mags sample3 none none none :=
  ⟨by decide, mags_empty_string_freq_eq_none sample3 none none (by decide)⟩

end PyChamber
